import Mathlib

/-!
Shallow embedding of the mediasoup signaling server in `cleanManyToMany.js`.

The server keeps five pieces of global mutable state:
`rooms` and `peers` are JavaScript objects (modelled as association lists
keyed by strings), while `transports`, `producers` and `consumers` are
arrays of records tagged with the owning socket id and the room name.

External collaborators (the mediasoup engine, the recorder) only hand back
opaque ids; those ids are passed to the embedded handlers as parameters.
A handler that in JavaScript would throw an uncaught exception (for example
dereferencing `peers[socket.id]` when no such peer exists) is modelled as
returning `none`: no response reaches the client and, on those paths, the
registries are not modified (the throwing dereference happens before any
mutation in every handler modelled with `Option`).
-/

namespace Mediasoup

/-- One entry of the global `transports` array:
`{ socketId, transport, roomName, consumer }` with the engine handle
replaced by the transport's id. -/
structure TransportRec where
  socketId : String
  transportId : String
  roomName : String
  consumer : Bool
deriving DecidableEq

/-- One entry of the global `producers` array:
`{ socketId, producer, roomName }`; of the engine handle we keep the
producer's id and its media kind. -/
structure ProducerRec where
  socketId : String
  producerId : String
  kind : String
  roomName : String
deriving DecidableEq

/-- One entry of the global `consumers` array:
`{ socketId, consumer, roomName }` with the engine handle replaced by the
consumer's id. -/
structure ConsumerRec where
  socketId : String
  consumerId : String
  roomName : String
deriving DecidableEq

/-- The value stored at `peers[socket.id]`: room name, the three owned
resource-id arrays, and `peerDetails.name`.  The live socket handle is
represented by the peer's key in the association list. -/
structure PeerRec where
  roomName : String
  transports : List String
  producers : List String
  consumers : List String
  userName : String
deriving DecidableEq

/-- The value stored at `rooms[roomName]`: the router (routing-context
handle, kept as an opaque id) and the array of member socket ids. -/
structure RoomRec where
  router : String
  peers : List String
deriving DecidableEq

/-- JavaScript-object-as-association-list, keys are unique by
construction of the operations below. -/
abbrev AList (α : Type) := List (String × α)

/-- `obj[key]`: the first binding of `key`, if any. -/
def lookupA {α : Type} : AList α → String → Option α
  | [], _ => none
  | (k, v) :: rest, key => if k = key then some v else lookupA rest key

/-- `obj[key] = v`: replace the binding of `key` in place, or append a new
binding when the key is absent. -/
def updateA {α : Type} : AList α → String → α → AList α
  | [], key, v => [(key, v)]
  | (k, w) :: rest, key, v =>
      if k = key then (key, v) :: rest else (k, w) :: updateA rest key v

/-- `delete obj[key]`. -/
def eraseA {α : Type} (l : AList α) (key : String) : AList α :=
  l.filter (fun kv => kv.1 ≠ key)

/-- The whole of the server's global mutable state. -/
structure ServerState where
  rooms : AList RoomRec
  peers : AList PeerRec
  transports : List TransportRec
  producers : List ProducerRec
  consumers : List ConsumerRec
deriving DecidableEq

/-- State at process start: every registry empty. -/
def initialState : ServerState := ⟨[], [], [], [], []⟩

/-- `removeItems(items, socketId, type)`: closes the engine handle of every
item owned by `socketId` (a pure no-op here) and returns the array filtered
down to the items of the other sockets. -/
def removeItems {α : Type} (items : List α) (owner : α → String) (socketId : String) : List α :=
  items.filter (fun item => owner item ≠ socketId)

/-- `createRoom(roomName, socketId)`: reuses the room's router when the room
exists, otherwise takes a fresh router from the engine (`freshRouter`), and
unconditionally appends `socketId` to the member array.  Returns the router
together with the updated state. -/
def createRoom (s : ServerState) (roomName socketId freshRouter : String) :
    String × ServerState :=
  match lookupA s.rooms roomName with
  | some room =>
      (room.router,
        { s with rooms := updateA s.rooms roomName ⟨room.router, room.peers ++ [socketId]⟩ })
  | none =>
      (freshRouter,
        { s with rooms := updateA s.rooms roomName ⟨freshRouter, [socketId]⟩ })

/-- The `joinRoom` handler: runs `createRoom` and then overwrites
`peers[socket.id]` with a fresh record holding empty resource-id arrays.
The response carries the router (standing for its `rtpCapabilities`). -/
def joinRoom (s : ServerState) (socketId roomName userName freshRouter : String) :
    ServerState × String :=
  let res := createRoom s roomName socketId freshRouter
  ({ res.2 with peers := updateA res.2.peers socketId ⟨roomName, [], [], [], userName⟩ },
   res.1)

/-- The member array of a room, `[]` when the room does not exist. -/
def roomMembers (s : ServerState) (roomName : String) : List String :=
  match lookupA s.rooms roomName with
  | some room => room.peers
  | none => []

/-- `addTransport`: appends to the global `transports` array and appends the
transport id to the owning peer's `transports` array.  (In JavaScript a
missing peer record would throw; every caller has already dereferenced the
peer, so the `none` branch is unreachable from the handlers.) -/
def addTransport (s : ServerState) (socketId transportId roomName : String)
    (consumer : Bool) : ServerState :=
  match lookupA s.peers socketId with
  | some peer =>
      { s with
        transports := s.transports ++ [⟨socketId, transportId, roomName, consumer⟩],
        peers := updateA s.peers socketId
          { peer with transports := peer.transports ++ [transportId] } }
  | none => s

/-- `addProducer`: appends to the global `producers` array and to the owning
peer's `producers` array. -/
def addProducer (s : ServerState) (socketId producerId kind roomName : String) :
    ServerState :=
  match lookupA s.peers socketId with
  | some peer =>
      { s with
        producers := s.producers ++ [⟨socketId, producerId, kind, roomName⟩],
        peers := updateA s.peers socketId
          { peer with producers := peer.producers ++ [producerId] } }
  | none => s

/-- `addConsumer`: appends to the global `consumers` array and to the owning
peer's `consumers` array. -/
def addConsumer (s : ServerState) (socketId consumerId roomName : String) :
    ServerState :=
  match lookupA s.peers socketId with
  | some peer =>
      { s with
        consumers := s.consumers ++ [⟨socketId, consumerId, roomName⟩],
        peers := updateA s.peers socketId
          { peer with consumers := peer.consumers ++ [consumerId] } }
  | none => s

/-- `informConsumers(roomName, socketId, id)`: walks the global `producers`
array and, for every producer record owned by a different socket in the same
room, emits a `new-producer` notification to that record's owner.  The
result is the list of emitted notifications as (target socket id, carried
producer id) pairs, in array order. -/
def informConsumers (producerList : List ProducerRec) (roomName socketId id : String) :
    List (String × String) :=
  (producerList.filter
      (fun pd => pd.socketId != socketId && pd.roomName == roomName)).map
    (fun pd => (pd.socketId, id))

/-- `getTransport(socketId)`: first non-consumer transport of the socket.
`none` models the uncaught `TypeError` of `producerTransport.transport`
when the filter comes back empty. -/
def getTransport (s : ServerState) (socketId : String) : Option TransportRec :=
  (s.transports.filter (fun t => t.socketId == socketId && !t.consumer)).head?

/-- The `disconnect` handler (the one at the top of the connection handler):
filters the three resource registries by owner, deletes the peer record and
filters the peer out of its room's member array, keeping the room and its
router.  `none` models the uncaught `TypeError` when `peers[socket.id]` or
`rooms[roomName]` is missing.  (A second `disconnect` handler further down
only calls the external recorder's stop and does not touch this state.) -/
def disconnect (s : ServerState) (socketId : String) : Option ServerState :=
  let consumers2 := removeItems s.consumers ConsumerRec.socketId socketId
  let producers2 := removeItems s.producers ProducerRec.socketId socketId
  let transports2 := removeItems s.transports TransportRec.socketId socketId
  match lookupA s.peers socketId with
  | none => none
  | some peer =>
    match lookupA s.rooms peer.roomName with
    | none => none
    | some room =>
      some { rooms := updateA s.rooms peer.roomName
               ⟨room.router, room.peers.filter (fun i => i != socketId)⟩,
             peers := eraseA s.peers socketId,
             transports := transports2,
             producers := producers2,
             consumers := consumers2 }

/-- The `createWebRtcTransport` handler: dereferences
`peers[socket.id].roomName` and `rooms[roomName].router` (each `none` when
missing, modelling the uncaught fault), asks the engine for a transport
(its id arrives as `newTransportId`), answers the callback with the
transport parameters and records the transport via `addTransport`. -/
def createWebRtcTransportHandler (s : ServerState) (socketId : String) (consumer : Bool)
    (newTransportId : String) : Option (ServerState × String) :=
  match lookupA s.peers socketId with
  | none => none
  | some peer =>
    match lookupA s.rooms peer.roomName with
    | none => none
    | some _room =>
        some (addTransport s socketId newTransportId peer.roomName consumer, newTransportId)

/-- The `getProducers` handler: dereferences `peers[socket.id]` (`none` on
the uncaught fault) and answers with the ids of every producer record of
the same room owned by a different socket, in array order. -/
def getProducersHandler (s : ServerState) (socketId : String) : Option (List String) :=
  match lookupA s.peers socketId with
  | none => none
  | some peer =>
      some ((s.producers.filter
          (fun pd => pd.socketId != socketId && pd.roomName == peer.roomName)).map
        (fun pd => pd.producerId))

/-- The `transport-connect` handler: `getTransport(socket.id).connect(...)`;
the state is unchanged, `none` models the uncaught fault when the socket
owns no send transport. -/
def transportConnect (s : ServerState) (socketId : String) : Option ServerState :=
  match getTransport s socketId with
  | none => none
  | some _t => some s

/-- The callback payload of `transport-produce` plus the `new-producer`
notifications emitted by `informConsumers` on the way. -/
structure ProduceResponse where
  id : String
  producersExist : Bool
  notifications : List (String × String)
deriving DecidableEq

/-- The `transport-produce` handler: produces on the send transport (the
engine-issued producer id arrives as `newProducerId`), dereferences
`peers[socket.id]`, records the producer via `addProducer`, runs
`informConsumers` on the updated `producers` array, and answers with the
producer id and `producersExist: producers.length > 1`. -/
def transportProduce (s : ServerState) (socketId kind newProducerId : String) :
    Option (ServerState × ProduceResponse) :=
  match getTransport s socketId with
  | none => none
  | some _t =>
    match lookupA s.peers socketId with
    | none => none
    | some peer =>
      let s2 := addProducer s socketId newProducerId kind peer.roomName
      some (s2,
        ⟨newProducerId,
         decide (s2.producers.length > 1),
         informConsumers s2.producers peer.roomName socketId newProducerId⟩)

/-- What the `consume` handler's callback delivers: a success payload with
the new consumer's id, the error payload `{ params: { error } }` produced by
the catch block, or nothing at all (the silent skip when `canConsume` is
false). -/
inductive ConsumeResult where
  | ok (consumerId : String)
  | errorParams
  | silentSkip
deriving DecidableEq

/-- The `consume` handler: inside its try block it dereferences
`peers[socket.id]` and `rooms[roomName]`, looks the consumer transport up by
id over the whole `transports` array, asks the router `canConsume`, and on
success records the consumer via `addConsumer`.  Every throw on the way
(missing peer, missing room, `find` returning `undefined`) is caught and
answered as `errorParams` with the state untouched. -/
def consumeHandler (s : ServerState) (socketId serverConsumerTransportId : String)
    (canConsume : Bool) (newConsumerId : String) : ServerState × ConsumeResult :=
  match lookupA s.peers socketId with
  | none => (s, .errorParams)
  | some peer =>
    match lookupA s.rooms peer.roomName with
    | none => (s, .errorParams)
    | some _room =>
      match s.transports.find?
          (fun t => t.consumer && t.transportId == serverConsumerTransportId) with
      | none => (s, .errorParams)
      | some _ct =>
        if canConsume then
          (addConsumer s socketId newConsumerId peer.roomName, .ok newConsumerId)
        else (s, .silentSkip)

/-- The `producerclose` listener installed on a consumer: emits
`producer-closed` to the consuming socket, then filters the consumer's
transport out of `transports` and the consumer out of `consumers`; the
owning peer's id arrays are not updated. -/
def producerClosePropagation (s : ServerState) (consumerTransportId consumerId : String) :
    ServerState :=
  { s with
    transports := s.transports.filter (fun t => t.transportId != consumerTransportId),
    consumers := s.consumers.filter (fun c => c.consumerId != consumerId) }

/-- Outcome of the `startRecording` handler: the two error callbacks or the
success callback; `started` is reached exactly when the external recorder
(`startCombinedRecording`) is invoked, and carries the file name it returns. -/
inductive RecordingResult where
  | notFound
  | invalidKinds
  | started (fileName : String)
deriving DecidableEq

/-- The `startRecording` handler: finds both producers by id over the global
`producers` array, answers `{error: "One or both producers not found"}`
(here `notFound`) when either is missing, answers
`{error: "Invalid producer kinds. Need one audio and one video producer."}`
(here `invalidKinds`) when the kinds do not match, and otherwise delegates
to the external recorder and answers success with its file name. -/
def startRecordingHandler (s : ServerState) (audioProducerId videoProducerId fileName : String) :
    RecordingResult :=
  match s.producers.find? (fun p => p.producerId == audioProducerId),
        s.producers.find? (fun p => p.producerId == videoProducerId) with
  | some audioProducer, some videoProducer =>
      if audioProducer.kind != "audio" || videoProducer.kind != "video" then
        .invalidKinds
      else
        .started fileName
  | some _, none => .notFound
  | none, some _ => .notFound
  | none, none => .notFound

/-- True exactly on the outcome in which the external recorder was invoked. -/
def recorderInvoked : RecordingResult → Bool
  | .started _ => true
  | .notFound => false
  | .invalidKinds => false

/-! ### Association-list lemmas -/

theorem lookupA_updateA_self {α : Type} (l : AList α) (k : String) (v : α) :
    lookupA (updateA l k v) k = some v := by
  induction l with
  | nil => simp [updateA, lookupA]
  | cons kv rest ih =>
      obtain ⟨k', w⟩ := kv
      by_cases h : k' = k
      · simp [updateA, h, lookupA]
      · simp [updateA, h, lookupA, ih]

theorem lookupA_updateA_ne {α : Type} (l : AList α) (k k' : String) (v : α)
    (h : k' ≠ k) : lookupA (updateA l k v) k' = lookupA l k' := by
  have hkk : k ≠ k' := Ne.symm h
  induction l with
  | nil => simp [updateA, lookupA, hkk]
  | cons kv rest ih =>
      obtain ⟨k₀, w⟩ := kv
      by_cases h0 : k₀ = k
      · subst h0
        simp [updateA, lookupA, hkk]
      · simp only [updateA, if_neg h0, lookupA]
        by_cases h1 : k₀ = k'
        · simp [h1]
        · simp [h1, ih]

theorem lookupA_eraseA_self {α : Type} (l : AList α) (k : String) :
    lookupA (eraseA l k) k = none := by
  induction l with
  | nil => rfl
  | cons kv rest ih =>
      obtain ⟨k', w⟩ := kv
      by_cases h : k' = k
      · subst h
        simpa [eraseA, List.filter_cons] using ih
      · simpa [eraseA, List.filter_cons, lookupA, h] using ih

theorem lookupA_eraseA_ne {α : Type} (l : AList α) (k k' : String)
    (h : k' ≠ k) : lookupA (eraseA l k) k' = lookupA l k' := by
  have hkk : k ≠ k' := Ne.symm h
  induction l with
  | nil => rfl
  | cons kv rest ih =>
      obtain ⟨k₀, w⟩ := kv
      by_cases h0 : k₀ = k
      · subst h0
        simpa [eraseA, List.filter_cons, lookupA, hkk] using ih
      · by_cases h1 : k₀ = k'
        · simp [eraseA, List.filter_cons, h0, lookupA, h1, h]
        · simpa [eraseA, List.filter_cons, h0, lookupA, h1] using ih

theorem lookupA_mem {α : Type} (l : AList α) (k : String) (v : α)
    (h : lookupA l k = some v) : (k, v) ∈ l := by
  induction l with
  | nil => simp [lookupA] at h
  | cons kv rest ih =>
      obtain ⟨k', w⟩ := kv
      by_cases h0 : k' = k
      · subst h0
        simp [lookupA] at h
        simp [h]
      · simp [lookupA, h0] at h
        exact List.mem_cons_of_mem _ (ih h)

theorem mem_updateA {α : Type} (l : AList α) (k : String) (v : α) (x : String × α)
    (h : x ∈ updateA l k v) : x = (k, v) ∨ x ∈ l := by
  induction l with
  | nil => simpa [updateA] using h
  | cons kv rest ih =>
      obtain ⟨k', w⟩ := kv
      by_cases h0 : k' = k
      · simp [updateA, h0] at h
        rcases h with h | h
        · exact Or.inl h
        · exact Or.inr (List.mem_cons_of_mem _ h)
      · simp [updateA, h0] at h
        rcases h with h | h
        · exact Or.inr (by simp [h])
        · rcases ih h with h | h
          · exact Or.inl h
          · exact Or.inr (List.mem_cons_of_mem _ h)

/-! ### Shape lemmas for the handlers -/

/-- `joinRoom` always appends the joining socket to the room's member
array, creating the room when needed. -/
theorem roomMembers_joinRoom (s : ServerState) (p r u f : String) :
    roomMembers (joinRoom s p r u f).1 r = roomMembers s r ++ [p] := by
  unfold roomMembers joinRoom createRoom
  cases h : lookupA s.rooms r <;> simp [h, lookupA_updateA_self]

/-- `joinRoom` leaves the three resource registries untouched and
overwrites the joining socket's peer record with fresh empty id arrays. -/
theorem joinRoom_state (s : ServerState) (p r u f : String) :
    (joinRoom s p r u f).1.peers = updateA s.peers p ⟨r, [], [], [], u⟩ ∧
    (joinRoom s p r u f).1.transports = s.transports ∧
    (joinRoom s p r u f).1.producers = s.producers ∧
    (joinRoom s p r u f).1.consumers = s.consumers := by
  unfold joinRoom createRoom
  cases h : lookupA s.rooms r <;> simp [h]

/-! ### Concrete scenario states -/

/-- Peer `A` then peer `B` join `room1`. -/
def sAB : ServerState :=
  (joinRoom (joinRoom initialState "A" "room1" "alice" "RA").1 "B" "room1" "bob" "RB").1

/-- ... then `A` creates a send transport `tA1`. -/
def sABt : ServerState :=
  ((createWebRtcTransportHandler sAB "A" false "tA1").map Prod.fst).getD sAB

/-- ... then `A` produces a video stream `pA`. -/
def sABtp : ServerState :=
  ((transportProduce sABt "A" "video" "pA").map Prod.fst).getD sABt

/-- ... then `A` also produces an audio stream `pAud`. -/
def sRec : ServerState :=
  ((transportProduce sABtp "A" "audio" "pAud").map Prod.fst).getD sABtp

/-- Double join of the same peer to the same room, from the initial state. -/
def sDouble : ServerState :=
  (joinRoom (joinRoom initialState "A" "room1" "alice" "R1").1 "A" "room1" "alice" "R2").1

/-! ### C2 — joinRoom idempotence -/

/-- Claim C2 (counterexample): after `joinRoom("room1", A)` twice with no
intervening disconnect, the member array of `room1` holds `A` twice, not
exactly once, so joinRoom is not idempotent per peer. -/
theorem claim_join_idempotent_cex :
    (roomMembers sDouble "room1").count "A" = 2 ∧
    (roomMembers sDouble "room1").count "A" ≠ 1 := by
  constructor <;> decide

/-- Claim C2 (amended): each `joinRoom(r, p)` appends `p` to `r`'s member
array unconditionally, so after `joinRoom(r, p)` twice the member array
contains `p`'s id exactly twice more than before (twice, starting from a
state in which `p` was not a member). -/
theorem claim_join_appends_each_time (s : ServerState) (p r u u2 f f2 : String) :
    (roomMembers (joinRoom (joinRoom s p r u f).1 p r u2 f2).1 r).count p =
      (roomMembers s r).count p + 2 := by
  rw [roomMembers_joinRoom, roomMembers_joinRoom]
  simp [List.count_append]

/-! ### C3 — handlers without an attached peer -/

/-- Claim C3 (counterexample): on a connection that has not joined a room,
`createWebRtcTransport`, `getProducers`, `transport-connect` and
`transport-produce` all end in an uncaught fault (`none`): no structured
InvalidState error payload is ever delivered to the caller. -/
theorem claim_invalid_state_cex :
    createWebRtcTransportHandler initialState "p1" false "t1" = none ∧
    getProducersHandler initialState "p1" = none ∧
    transportConnect initialState "p1" = none ∧
    transportProduce initialState "p1" "video" "prod1" = none := by
  refine ⟨rfl, rfl, rfl, rfl⟩

/-- Claim C3 (amended): when the connection has no attached Peer record and
owns no send transport, each of these handlers raises an unhandled fault
(modelled as `none`: the thrown `TypeError` escapes, no response of any kind
reaches the caller) instead of returning a structured InvalidState error;
on these paths the resource registries are not modified. -/
theorem claim_missing_peer_unhandled_fault (s : ServerState) (p tid k pid : String)
    (c : Bool) (hp : lookupA s.peers p = none) (ht : getTransport s p = none) :
    createWebRtcTransportHandler s p c tid = none ∧
    getProducersHandler s p = none ∧
    transportConnect s p = none ∧
    transportProduce s p k pid = none := by
  refine ⟨?_, ?_, ?_, ?_⟩ <;>
    simp [createWebRtcTransportHandler, getProducersHandler, transportConnect,
      transportProduce, hp, ht]

/-- Witness for the amended C3 at the initial state. -/
theorem claim_missing_peer_unhandled_fault_w :
    lookupA initialState.peers "p1" = none ∧
    getTransport initialState "p1" = none ∧
    (createWebRtcTransportHandler initialState "p1" false "t1" = none ∧
     getProducersHandler initialState "p1" = none ∧
     transportConnect initialState "p1" = none ∧
     transportProduce initialState "p1" "video" "prod1" = none) :=
  ⟨rfl, rfl,
   claim_missing_peer_unhandled_fault initialState "p1" "t1" "video" "prod1" false rfl rfl⟩

/-! ### C9 — second joinRoom for the same connection -/

/-- State in which `A` has joined and owns a send transport. -/
def sAt : ServerState :=
  ((createWebRtcTransportHandler (joinRoom initialState "A" "room1" "alice" "RA").1
      "A" false "tA1").map Prod.fst).getD initialState

/-- Claim C9 (counterexample): a second `joinRoom` for a connection whose
Peer record exists (and owns transport `tA1`) does not fail: it succeeds,
returns the room's capabilities (the reused router `RA`), overwrites the
Peer record with empty resource-id sets, and duplicates the member id. -/
theorem claim_second_join_invalid_state_cex :
    lookupA sAt.peers "A" = some ⟨"room1", ["tA1"], [], [], "alice"⟩ ∧
    (joinRoom sAt "A" "room1" "alice2" "R2").2 = "RA" ∧
    lookupA (joinRoom sAt "A" "room1" "alice2" "R2").1.peers "A" =
      some ⟨"room1", [], [], [], "alice2"⟩ ∧
    roomMembers (joinRoom sAt "A" "room1" "alice2" "R2").1 "room1" = ["A", "A"] := by
  refine ⟨?_, ?_, ?_, ?_⟩ <;> decide

/-- Claim C9 (amended): a second `joinRoom` for a connection that already
has a Peer record does not fail with InvalidState; it overwrites the Peer
record with a fresh one holding empty resource-id sets and appends the
connection id to the room's member array once more. -/
theorem claim_second_join_overwrites (s : ServerState) (p r u f : String) (peer : PeerRec)
    (_hp : lookupA s.peers p = some peer) :
    lookupA (joinRoom s p r u f).1.peers p = some ⟨r, [], [], [], u⟩ ∧
    roomMembers (joinRoom s p r u f).1 r = roomMembers s r ++ [p] := by
  refine ⟨?_, roomMembers_joinRoom s p r u f⟩
  rw [(joinRoom_state s p r u f).1]
  exact lookupA_updateA_self s.peers p _

/-- Witness for the amended C9 at the one-peer-with-transport state. -/
theorem claim_second_join_overwrites_w :
    lookupA sAt.peers "A" = some ⟨"room1", ["tA1"], [], [], "alice"⟩ ∧
    (lookupA (joinRoom sAt "A" "room1" "alice2" "R2").1.peers "A" =
        some ⟨"room1", [], [], [], "alice2"⟩ ∧
      roomMembers (joinRoom sAt "A" "room1" "alice2" "R2").1 "room1" =
        roomMembers sAt "room1" ++ ["A"]) :=
  ⟨by decide,
   claim_second_join_overwrites sAt "A" "room1" "alice2" "R2"
     ⟨"room1", ["tA1"], [], [], "alice"⟩ (by decide)⟩

/-! ### C1 — disconnect cleanup -/

/-- Claim C1: for a peer that has joined a room (its Peer record and its
room exist), the disconnect handler leaves zero transport, producer and
consumer records tagged with the peer's socket id, deletes the Peer record,
removes the id from the room's member array, and keeps the room itself,
with its router, in the room registry. -/
theorem claim_disconnect_cleanup (s : ServerState) (p : String) (peer : PeerRec)
    (room : RoomRec) (hp : lookupA s.peers p = some peer)
    (hr : lookupA s.rooms peer.roomName = some room) :
    ∃ s2, disconnect s p = some s2 ∧
      (∀ t ∈ s2.transports, t.socketId ≠ p) ∧
      (∀ pd ∈ s2.producers, pd.socketId ≠ p) ∧
      (∀ c ∈ s2.consumers, c.socketId ≠ p) ∧
      lookupA s2.peers p = none ∧
      ∃ room2, lookupA s2.rooms peer.roomName = some room2 ∧
        room2.router = room.router ∧ p ∉ room2.peers := by
  have hd : disconnect s p = some
      ⟨updateA s.rooms peer.roomName
          ⟨room.router, room.peers.filter (fun i => i != p)⟩,
        eraseA s.peers p,
        removeItems s.transports TransportRec.socketId p,
        removeItems s.producers ProducerRec.socketId p,
        removeItems s.consumers ConsumerRec.socketId p⟩ := by
    simp [disconnect, hp, hr]
  rw [hd]
  refine ⟨_, rfl, ?_, ?_, ?_, ?_, ?_⟩
  · intro t ht
    simp only [removeItems, List.mem_filter, decide_not, Bool.not_eq_eq_eq_not,
      Bool.not_true, decide_eq_false_iff_not] at ht
    exact ht.2
  · intro pd hpd
    simp only [removeItems, List.mem_filter, decide_not, Bool.not_eq_eq_eq_not,
      Bool.not_true, decide_eq_false_iff_not] at hpd
    exact hpd.2
  · intro c hc
    simp only [removeItems, List.mem_filter, decide_not, Bool.not_eq_eq_eq_not,
      Bool.not_true, decide_eq_false_iff_not] at hc
    exact hc.2
  · exact lookupA_eraseA_self s.peers p
  · refine ⟨_, lookupA_updateA_self s.rooms peer.roomName _, rfl, ?_⟩
    simp [List.mem_filter]

/-- Witness for C1: disconnecting `A` from the two-peer room after `A`
created a transport and produced a stream. -/
theorem claim_disconnect_cleanup_w :
    lookupA sABtp.peers "A" = some ⟨"room1", ["tA1"], ["pA"], [], "alice"⟩ ∧
    lookupA sABtp.rooms "room1" = some ⟨"RA", ["A", "B"]⟩ ∧
    (∃ s2, disconnect sABtp "A" = some s2 ∧
      (∀ t ∈ s2.transports, t.socketId ≠ "A") ∧
      (∀ pd ∈ s2.producers, pd.socketId ≠ "A") ∧
      (∀ c ∈ s2.consumers, c.socketId ≠ "A") ∧
      lookupA s2.peers "A" = none ∧
      ∃ room2, lookupA s2.rooms "room1" = some room2 ∧
        room2.router = "RA" ∧ "A" ∉ room2.peers) :=
  ⟨by decide, by decide,
   claim_disconnect_cleanup sABtp "A" ⟨"room1", ["tA1"], ["pA"], [], "alice"⟩
     ⟨"RA", ["A", "B"]⟩ (by decide) (by decide)⟩

/-! ### C5 — startRecording validation -/

/-- Claim C5: `startRecording` answers the structured not-found error when
either producer id is absent from the producer registry, answers the
invalid-kinds error when both exist but the audio id does not resolve to an
audio producer or the video id does not resolve to a video producer, and in
both failure cases the external recorder is not invoked. -/
theorem claim_start_recording_errors (s : ServerState) (aid vid fn : String) :
    ((s.producers.find? (fun pd => pd.producerId == aid) = none ∨
      s.producers.find? (fun pd => pd.producerId == vid) = none) →
      startRecordingHandler s aid vid fn = RecordingResult.notFound ∧
      recorderInvoked (startRecordingHandler s aid vid fn) = false) ∧
    (∀ pa pv, s.producers.find? (fun pd => pd.producerId == aid) = some pa →
      s.producers.find? (fun pd => pd.producerId == vid) = some pv →
      (pa.kind ≠ "audio" ∨ pv.kind ≠ "video") →
      startRecordingHandler s aid vid fn = RecordingResult.invalidKinds ∧
      recorderInvoked (startRecordingHandler s aid vid fn) = false) := by
  constructor
  · intro h
    have hnf : startRecordingHandler s aid vid fn = RecordingResult.notFound := by
      unfold startRecordingHandler
      rcases h with h | h
      · rw [h]
        cases s.producers.find? (fun pd => pd.producerId == vid) <;> rfl
      · rw [h]
        cases s.producers.find? (fun pd => pd.producerId == aid) <;> rfl
    exact ⟨hnf, by rw [hnf]; rfl⟩
  · intro pa pv ha hv hk
    have hik : startRecordingHandler s aid vid fn = RecordingResult.invalidKinds := by
      unfold startRecordingHandler
      rw [ha, hv]
      have hb : (pa.kind != "audio" || pv.kind != "video") = true := by
        rcases hk with h | h <;> simp [bne_iff_ne, h]
      simp [hb]
    exact ⟨hik, by rw [hik]; rfl⟩

/-- Witness for C5: an unknown audio id yields not-found; swapping the
video producer `pA` into the audio slot yields invalid-kinds; the recorder
is not invoked in either case. -/
theorem claim_start_recording_errors_w :
    (startRecordingHandler sRec "nope" "pA" "f" = RecordingResult.notFound ∧
     recorderInvoked (startRecordingHandler sRec "nope" "pA" "f") = false) ∧
    (startRecordingHandler sRec "pA" "pAud" "f" = RecordingResult.invalidKinds ∧
     recorderInvoked (startRecordingHandler sRec "pA" "pAud" "f") = false) :=
  ⟨(claim_start_recording_errors sRec "nope" "pA" "f").1 (Or.inl (by decide)),
   (claim_start_recording_errors sRec "pA" "pAud" "f").2
     ⟨"A", "pA", "video", "room1"⟩ ⟨"A", "pAud", "audio", "room1"⟩
     (by decide) (by decide) (Or.inl (by decide))⟩

/-! ### C6 — consume with a stale consumer-transport id -/

/-- Claim C6: a `consume` request whose `serverConsumerTransportId` matches
no consumer transport in the transport registry is answered with the error
payload from the catch block, and the state — in particular the consumer
registry — is unchanged. -/
theorem claim_consume_bad_transport (s : ServerState) (p tid cid : String) (can : Bool)
    (h : s.transports.find? (fun t => t.consumer && t.transportId == tid) = none) :
    consumeHandler s p tid can cid = (s, ConsumeResult.errorParams) ∧
    (consumeHandler s p tid can cid).1.consumers = s.consumers := by
  have hmain : consumeHandler s p tid can cid = (s, ConsumeResult.errorParams) := by
    cases hp : lookupA s.peers p with
    | none => simp [consumeHandler, hp]
    | some peer =>
        cases hr : lookupA s.rooms peer.roomName with
        | none => simp [consumeHandler, hp, hr]
        | some room => simp [consumeHandler, hp, hr, h]
  exact ⟨hmain, by rw [hmain]⟩

/-- Witness for C6: `B` asks to consume over the unknown transport id
`bogus` in the populated two-peer state. -/
theorem claim_consume_bad_transport_w :
    sABtp.transports.find? (fun t => t.consumer && t.transportId == "bogus") = none ∧
    (consumeHandler sABtp "B" "bogus" true "c1" = (sABtp, ConsumeResult.errorParams) ∧
     (consumeHandler sABtp "B" "bogus" true "c1").1.consumers = sABtp.consumers) :=
  ⟨by decide, claim_consume_bad_transport sABtp "B" "bogus" "c1" true (by decide)⟩

/-! ### C7 — getProducers answer -/

/-- Claim C7: for a joined peer, `getProducers` answers with exactly the
producer ids of the registry records whose room is the peer's room and
whose owner is a different socket — each id occurring as many times as
there are such records. -/
theorem claim_get_producers_excludes_caller (s : ServerState) (p : String) (peer : PeerRec)
    (hp : lookupA s.peers p = some peer) :
    ∃ l, getProducersHandler s p = some l ∧
      ∀ x, l.count x =
        s.producers.countP
          (fun pd => pd.producerId == x && (pd.socketId != p && pd.roomName == peer.roomName)) := by
  refine ⟨(s.producers.filter
      (fun pd => pd.socketId != p && pd.roomName == peer.roomName)).map
        (fun pd => pd.producerId), ?_, ?_⟩
  · simp [getProducersHandler, hp]
  · intro x
    rw [List.count_eq_countP, List.countP_map, List.countP_filter]
    rfl

/-- Witness for C7, the spec's scenario: `A` and `B` join `room1`, `A`
produces one video stream; `B`'s `getProducers` answer is exactly `[pA]`. -/
theorem claim_get_producers_excludes_caller_w :
    lookupA sABtp.peers "B" = some ⟨"room1", [], [], [], "bob"⟩ ∧
    getProducersHandler sABtp "B" = some ["pA"] ∧
    (∃ l, getProducersHandler sABtp "B" = some l ∧
      ∀ x, l.count x =
        sABtp.producers.countP
          (fun pd => pd.producerId == x && (pd.socketId != "B" && pd.roomName == "room1"))) :=
  ⟨by decide, by decide,
   claim_get_producers_excludes_caller sABtp "B" ⟨"room1", [], [], [], "bob"⟩ (by decide)⟩

/-! ### C10 — the producersExist flag -/

/-- The state/response pair produced when `A` adds a second (audio) stream
in the two-peer state in which only `A` has a producer. -/
def c10Pair : ServerState × ProduceResponse :=
  (transportProduce sABtp "A" "audio" "pAud").getD (sABtp, ⟨"x", false, []⟩)

/-- Claim C10: on a successful `transport-produce`, the registry grows by
exactly the new record, and the `producersExist` flag of the response is
true exactly when the global producer registry holds strictly more than one
record after the addition — equivalently, when it was non-empty before,
counted across all rooms and including the caller's own producers. -/
theorem claim_producers_exist_global_count (s s2 : ServerState) (p k pid : String)
    (resp : ProduceResponse)
    (h : transportProduce s p k pid = some (s2, resp)) :
    s2.producers.length = s.producers.length + 1 ∧
    (resp.producersExist = true ↔ 1 < s2.producers.length) ∧
    (resp.producersExist = true ↔ 0 < s.producers.length) := by
  unfold transportProduce at h
  cases hgt : getTransport s p with
  | none => rw [hgt] at h; exact absurd h (by simp)
  | some t =>
      rw [hgt] at h
      cases hp : lookupA s.peers p with
      | none => rw [hp] at h; exact absurd h (by simp)
      | some peer =>
          rw [hp] at h
          simp only [Option.some.injEq, Prod.mk.injEq] at h
          obtain ⟨hs, hresp⟩ := h
          subst hs
          subst hresp
          have hprod : (addProducer s p pid k peer.roomName).producers =
              s.producers ++ [⟨p, pid, k, peer.roomName⟩] := by
            simp [addProducer, hp]
          refine ⟨?_, ?_, ?_⟩
          · rw [hprod]; simp
          · simp
          · rw [hprod]
            simp only [decide_eq_true_eq, List.length_append, List.length_singleton]
            omega

/-- Witness for C10: `A` produces an audio stream while already owning the
only producer; the flag is true although the other room member `B` owns no
producer. -/
theorem claim_producers_exist_global_count_w :
    transportProduce sABtp "A" "audio" "pAud" = some (c10Pair.1, c10Pair.2) ∧
    c10Pair.2.producersExist = true ∧
    (∀ pd ∈ c10Pair.1.producers, pd.socketId = "A") ∧
    (c10Pair.1.producers.length = sABtp.producers.length + 1 ∧
     (c10Pair.2.producersExist = true ↔ 1 < c10Pair.1.producers.length) ∧
     (c10Pair.2.producersExist = true ↔ 0 < sABtp.producers.length)) :=
  ⟨by decide, by decide, by decide,
   claim_producers_exist_global_count sABtp c10Pair.1 "A" "audio" "pAud" c10Pair.2
     (by decide)⟩

/-! ### C4 — new-producer fan-out -/

/-- From the two-peer room: `B` creates a send transport `tB1`. -/
def sABbt : ServerState :=
  ((createWebRtcTransportHandler sAB "B" false "tB1").map Prod.fst).getD sAB

/-- ... `B` produces `pB`. -/
def sABbp : ServerState :=
  ((transportProduce sABbt "B" "video" "pB").map Prod.fst).getD sABbt

/-- ... `A` creates a send transport `tA1`. -/
def sABbpat : ServerState :=
  ((createWebRtcTransportHandler sABbp "A" false "tA1").map Prod.fst).getD sABbp

/-- ... and `A` produces `pA2`; the resulting state/response pair. -/
def c4Pair : ServerState × ProduceResponse :=
  (transportProduce sABbpat "A" "video" "pA2").getD (sABbpat, ⟨"x", false, []⟩)

/-- Claim C4 (counterexample): `A` and `B` are both joined to `room1` and
`A` produces, but since `B` owns no producer record the fan-out loop (which
walks the producer registry, not the member list) emits no notification at
all — `B` does not receive the notification exactly once. -/
theorem claim_fanout_per_peer_cex :
    "B" ∈ roomMembers sABt "room1" ∧ "B" ≠ "A" ∧
    (transportProduce sABt "A" "video" "pA").map (fun x => x.2.notifications) =
      some [] := by
  refine ⟨?_, ?_, ?_⟩ <;> decide

/-- Claim C4 (amended): on a successful `transport-produce`, the fan-out
emits one `new-producer` notification per producer record of the same room
owned by a different socket, addressed to that record's owner and carrying
the new producer's id — so a room member receives one copy per producer it
owns (zero copies if it owns none), no notification goes to the producing
socket, and none goes to a socket without a producer record in the room. -/
theorem claim_fanout_per_producer_record (s s2 : ServerState) (p k pid : String)
    (peer : PeerRec) (resp : ProduceResponse)
    (hpeer : lookupA s.peers p = some peer)
    (h : transportProduce s p k pid = some (s2, resp)) :
    (∀ n ∈ resp.notifications,
        n.2 = pid ∧ n.1 ≠ p ∧
        ∃ pd ∈ s2.producers, pd.socketId = n.1 ∧ pd.roomName = peer.roomName) ∧
    (∀ q, q ≠ p →
        resp.notifications.countP (fun n => n.1 == q) =
          s2.producers.countP
            (fun pd => pd.socketId == q && pd.roomName == peer.roomName)) := by
  unfold transportProduce at h
  cases hgt : getTransport s p with
  | none => rw [hgt] at h; exact absurd h (by simp)
  | some t =>
      rw [hgt, hpeer] at h
      simp only [Option.some.injEq, Prod.mk.injEq] at h
      obtain ⟨hs, hresp⟩ := h
      subst hs
      subst hresp
      constructor
      · intro n hn
        simp only [informConsumers, List.mem_map, List.mem_filter] at hn
        obtain ⟨pd, ⟨hpdmem, hcond⟩, hn⟩ := hn
        subst hn
        simp only [Bool.and_eq_true, bne_iff_ne, beq_iff_eq] at hcond
        exact ⟨rfl, hcond.1, pd, hpdmem, rfl, hcond.2⟩
      · intro q hq
        simp only [informConsumers]
        rw [List.countP_map, List.countP_filter]
        apply List.countP_congr
        intro pd _
        simp only [Function.comp, Bool.and_eq_true, beq_iff_eq, bne_iff_ne]
        constructor
        · rintro ⟨h1, _h2, h3⟩
          exact ⟨h1, h3⟩
        · rintro ⟨h1, h3⟩
          exact ⟨h1, fun hh => hq (h1.symm.trans hh), h3⟩

/-- Witness for the amended C4: with `B` owning one producer in the room,
`A`'s produce emits exactly one notification, addressed to `B`. -/
theorem claim_fanout_per_producer_record_w :
    lookupA sABbpat.peers "A" = some ⟨"room1", ["tA1"], [], [], "alice"⟩ ∧
    transportProduce sABbpat "A" "video" "pA2" = some (c4Pair.1, c4Pair.2) ∧
    c4Pair.2.notifications = [("B", "pA2")] ∧
    ((∀ n ∈ c4Pair.2.notifications,
        n.2 = "pA2" ∧ n.1 ≠ "A" ∧
        ∃ pd ∈ c4Pair.1.producers, pd.socketId = n.1 ∧ pd.roomName = "room1") ∧
     (∀ q, q ≠ "A" →
        c4Pair.2.notifications.countP (fun n => n.1 == q) =
          c4Pair.1.producers.countP
            (fun pd => pd.socketId == q && pd.roomName == "room1"))) :=
  ⟨by decide, by decide, by decide,
   claim_fanout_per_producer_record sABbpat c4Pair.1 "A" "video" "pA2"
     ⟨"room1", ["tA1"], [], [], "alice"⟩ c4Pair.2 (by decide) (by decide)⟩

/-! ### C8 — registry / peer-ownership consistency -/

/-- One direction of the consistency invariant, generic over the record
type of a resource registry: every registry record's owner has a peer
record whose relevant id array contains the record's id. -/
def RegOwned {ρ : Type} (recs : List ρ) (owner rid : ρ → String)
    (peers : AList PeerRec) (fget : PeerRec → List String) : Prop :=
  ∀ x ∈ recs, ∃ pr, lookupA peers (owner x) = some pr ∧ rid x ∈ fget pr

/-- The converse direction: every id in a peer record's relevant id array
names a registry record owned by that peer. -/
def PeerBacked {ρ : Type} (recs : List ρ) (owner rid : ρ → String)
    (peers : AList PeerRec) (fget : PeerRec → List String) : Prop :=
  ∀ kv ∈ peers, ∀ i ∈ fget (Prod.snd kv), ∃ x ∈ recs, owner x = kv.1 ∧ rid x = i

/-- Mutual consistency of the three resource registries with the peers'
owned-id arrays, in both directions, for all three resource kinds. -/
def Consistent (s : ServerState) : Prop :=
  RegOwned s.transports TransportRec.socketId TransportRec.transportId
    s.peers PeerRec.transports ∧
  RegOwned s.producers ProducerRec.socketId ProducerRec.producerId
    s.peers PeerRec.producers ∧
  RegOwned s.consumers ConsumerRec.socketId ConsumerRec.consumerId
    s.peers PeerRec.consumers ∧
  PeerBacked s.transports TransportRec.socketId TransportRec.transportId
    s.peers PeerRec.transports ∧
  PeerBacked s.producers ProducerRec.socketId ProducerRec.producerId
    s.peers PeerRec.producers ∧
  PeerBacked s.consumers ConsumerRec.socketId ConsumerRec.consumerId
    s.peers PeerRec.consumers

theorem regOwned_untouched {ρ : Type} (recs : List ρ) (owner rid : ρ → String)
    (peers : AList PeerRec) (fget : PeerRec → List String) (p : String)
    (peer newPeer : PeerRec) (hp : lookupA peers p = some peer)
    (hkeep : ∀ i ∈ fget peer, i ∈ fget newPeer)
    (h : RegOwned recs owner rid peers fget) :
    RegOwned recs owner rid (updateA peers p newPeer) fget := by
  intro x hx
  obtain ⟨pr, hpr, hmem⟩ := h x hx
  by_cases hxo : owner x = p
  · rw [hxo] at hpr ⊢
    rw [hp] at hpr
    obtain rfl := Option.some.inj hpr
    exact ⟨newPeer, lookupA_updateA_self _ _ _, hkeep _ hmem⟩
  · exact ⟨pr, by rw [lookupA_updateA_ne _ _ _ _ hxo]; exact hpr, hmem⟩

theorem regOwned_add {ρ : Type} (recs : List ρ) (owner rid : ρ → String)
    (peers : AList PeerRec) (fget : PeerRec → List String) (p : String)
    (peer newPeer : PeerRec) (newRec : ρ)
    (hp : lookupA peers p = some peer)
    (hkeep : ∀ i ∈ fget peer, i ∈ fget newPeer)
    (howner : owner newRec = p)
    (hid : rid newRec ∈ fget newPeer)
    (h : RegOwned recs owner rid peers fget) :
    RegOwned (recs ++ [newRec]) owner rid (updateA peers p newPeer) fget := by
  intro x hx
  rcases List.mem_append.1 hx with hx | hx
  · exact regOwned_untouched recs owner rid peers fget p peer newPeer hp hkeep h x hx
  · rw [List.mem_singleton] at hx
    subst hx
    rw [howner]
    exact ⟨newPeer, lookupA_updateA_self _ _ _, hid⟩

theorem regOwned_join_fresh {ρ : Type} (recs : List ρ) (owner rid : ρ → String)
    (peers : AList PeerRec) (fget : PeerRec → List String) (p : String)
    (newPeer : PeerRec) (hp : lookupA peers p = none)
    (h : RegOwned recs owner rid peers fget) :
    RegOwned recs owner rid (updateA peers p newPeer) fget := by
  intro x hx
  obtain ⟨pr, hpr, hmem⟩ := h x hx
  have hxo : owner x ≠ p := by
    intro hh
    rw [hh, hp] at hpr
    exact Option.noConfusion hpr
  exact ⟨pr, by rw [lookupA_updateA_ne _ _ _ _ hxo]; exact hpr, hmem⟩

theorem regOwned_disconnect {ρ : Type} (recs : List ρ) (owner rid : ρ → String)
    (peers : AList PeerRec) (fget : PeerRec → List String) (p : String)
    (h : RegOwned recs owner rid peers fget) :
    RegOwned (removeItems recs owner p) owner rid (eraseA peers p) fget := by
  intro x hx
  simp only [removeItems, List.mem_filter, decide_eq_true_eq] at hx
  obtain ⟨pr, hpr, hmem⟩ := h x hx.1
  exact ⟨pr, by rw [lookupA_eraseA_ne _ _ _ hx.2]; exact hpr, hmem⟩

theorem peerBacked_keep {ρ : Type} (recs : List ρ) (owner rid : ρ → String)
    (peers : AList PeerRec) (fget : PeerRec → List String) (p : String)
    (peer newPeer : PeerRec) (hp : lookupA peers p = some peer)
    (hfield : ∀ i ∈ fget newPeer, i ∈ fget peer)
    (h : PeerBacked recs owner rid peers fget) :
    PeerBacked recs owner rid (updateA peers p newPeer) fget := by
  intro kv hkv i hi
  rcases mem_updateA _ _ _ _ hkv with hkv | hkv
  · subst hkv
    exact h (p, peer) (lookupA_mem _ _ _ hp) i (hfield i hi)
  · exact h kv hkv i hi

theorem peerBacked_add {ρ : Type} (recs : List ρ) (owner rid : ρ → String)
    (peers : AList PeerRec) (fget : PeerRec → List String) (p : String)
    (peer newPeer : PeerRec) (newRec : ρ)
    (hp : lookupA peers p = some peer)
    (hfield : ∀ i ∈ fget newPeer, i ∈ fget peer ∨ i = rid newRec)
    (howner : owner newRec = p)
    (h : PeerBacked recs owner rid peers fget) :
    PeerBacked (recs ++ [newRec]) owner rid (updateA peers p newPeer) fget := by
  intro kv hkv i hi
  rcases mem_updateA _ _ _ _ hkv with hkv | hkv
  · subst hkv
    rcases hfield i hi with hio | hio
    · obtain ⟨x, hx, ho, hr⟩ := h (p, peer) (lookupA_mem _ _ _ hp) i hio
      exact ⟨x, List.mem_append_left _ hx, ho, hr⟩
    · subst hio
      exact ⟨newRec, List.mem_append_right _ (List.mem_singleton_self _), howner, rfl⟩
  · obtain ⟨x, hx, ho, hr⟩ := h kv hkv i hi
    exact ⟨x, List.mem_append_left _ hx, ho, hr⟩

theorem peerBacked_join_fresh {ρ : Type} (recs : List ρ) (owner rid : ρ → String)
    (peers : AList PeerRec) (fget : PeerRec → List String) (p : String)
    (newPeer : PeerRec) (hempty : fget newPeer = [])
    (h : PeerBacked recs owner rid peers fget) :
    PeerBacked recs owner rid (updateA peers p newPeer) fget := by
  intro kv hkv i hi
  rcases mem_updateA _ _ _ _ hkv with hkv | hkv
  · subst hkv
    have hi2 : i ∈ fget newPeer := hi
    rw [hempty] at hi2
    exact absurd hi2 (List.not_mem_nil i)
  · exact h kv hkv i hi

theorem peerBacked_disconnect {ρ : Type} (recs : List ρ) (owner rid : ρ → String)
    (peers : AList PeerRec) (fget : PeerRec → List String) (p : String)
    (h : PeerBacked recs owner rid peers fget) :
    PeerBacked (removeItems recs owner p) owner rid (eraseA peers p) fget := by
  intro kv hkv i hi
  have hkv2 := List.mem_filter.1 hkv
  have hkvp : kv.1 ≠ p := by
    have := hkv2.2
    simpa using this
  obtain ⟨x, hx, ho, hr⟩ := h kv hkv2.1 i hi
  refine ⟨x, ?_, ho, hr⟩
  simp only [removeItems, List.mem_filter, decide_eq_true_eq]
  exact ⟨hx, by rw [ho]; exact hkvp⟩

theorem consistent_addTransport (s : ServerState) (p tid room : String) (c : Bool)
    (peer : PeerRec) (hp : lookupA s.peers p = some peer) (h : Consistent s) :
    Consistent (addTransport s p tid room c) := by
  obtain ⟨c1, c2, c3, c4, c5, c6⟩ := h
  have hstate : addTransport s p tid room c =
      { s with
        transports := s.transports ++ [⟨p, tid, room, c⟩],
        peers := updateA s.peers p
          { peer with transports := peer.transports ++ [tid] } } := by
    simp [addTransport, hp]
  rw [hstate]
  refine ⟨?_, ?_, ?_, ?_, ?_, ?_⟩
  · exact regOwned_add s.transports TransportRec.socketId TransportRec.transportId
      s.peers PeerRec.transports p peer _ _ hp
      (fun i hi => List.mem_append_left _ hi) rfl
      (List.mem_append_right _ (List.mem_singleton_self _)) c1
  · exact regOwned_untouched s.producers ProducerRec.socketId ProducerRec.producerId
      s.peers PeerRec.producers p peer _ hp (fun i hi => hi) c2
  · exact regOwned_untouched s.consumers ConsumerRec.socketId ConsumerRec.consumerId
      s.peers PeerRec.consumers p peer _ hp (fun i hi => hi) c3
  · exact peerBacked_add s.transports TransportRec.socketId TransportRec.transportId
      s.peers PeerRec.transports p peer _ _ hp
      (fun i hi => by
        rcases List.mem_append.1 hi with hh | hh
        · exact Or.inl hh
        · exact Or.inr (by simpa using hh)) rfl c4
  · exact peerBacked_keep s.producers ProducerRec.socketId ProducerRec.producerId
      s.peers PeerRec.producers p peer _ hp (fun i hi => hi) c5
  · exact peerBacked_keep s.consumers ConsumerRec.socketId ConsumerRec.consumerId
      s.peers PeerRec.consumers p peer _ hp (fun i hi => hi) c6

theorem consistent_addProducer (s : ServerState) (p pid k room : String)
    (peer : PeerRec) (hp : lookupA s.peers p = some peer) (h : Consistent s) :
    Consistent (addProducer s p pid k room) := by
  obtain ⟨c1, c2, c3, c4, c5, c6⟩ := h
  have hstate : addProducer s p pid k room =
      { s with
        producers := s.producers ++ [⟨p, pid, k, room⟩],
        peers := updateA s.peers p
          { peer with producers := peer.producers ++ [pid] } } := by
    simp [addProducer, hp]
  rw [hstate]
  refine ⟨?_, ?_, ?_, ?_, ?_, ?_⟩
  · exact regOwned_untouched s.transports TransportRec.socketId TransportRec.transportId
      s.peers PeerRec.transports p peer _ hp (fun i hi => hi) c1
  · exact regOwned_add s.producers ProducerRec.socketId ProducerRec.producerId
      s.peers PeerRec.producers p peer _ _ hp
      (fun i hi => List.mem_append_left _ hi) rfl
      (List.mem_append_right _ (List.mem_singleton_self _)) c2
  · exact regOwned_untouched s.consumers ConsumerRec.socketId ConsumerRec.consumerId
      s.peers PeerRec.consumers p peer _ hp (fun i hi => hi) c3
  · exact peerBacked_keep s.transports TransportRec.socketId TransportRec.transportId
      s.peers PeerRec.transports p peer _ hp (fun i hi => hi) c4
  · exact peerBacked_add s.producers ProducerRec.socketId ProducerRec.producerId
      s.peers PeerRec.producers p peer _ _ hp
      (fun i hi => by
        rcases List.mem_append.1 hi with hh | hh
        · exact Or.inl hh
        · exact Or.inr (by simpa using hh)) rfl c5
  · exact peerBacked_keep s.consumers ConsumerRec.socketId ConsumerRec.consumerId
      s.peers PeerRec.consumers p peer _ hp (fun i hi => hi) c6

theorem consistent_addConsumer (s : ServerState) (p cid room : String)
    (peer : PeerRec) (hp : lookupA s.peers p = some peer) (h : Consistent s) :
    Consistent (addConsumer s p cid room) := by
  obtain ⟨c1, c2, c3, c4, c5, c6⟩ := h
  have hstate : addConsumer s p cid room =
      { s with
        consumers := s.consumers ++ [⟨p, cid, room⟩],
        peers := updateA s.peers p
          { peer with consumers := peer.consumers ++ [cid] } } := by
    simp [addConsumer, hp]
  rw [hstate]
  refine ⟨?_, ?_, ?_, ?_, ?_, ?_⟩
  · exact regOwned_untouched s.transports TransportRec.socketId TransportRec.transportId
      s.peers PeerRec.transports p peer _ hp (fun i hi => hi) c1
  · exact regOwned_untouched s.producers ProducerRec.socketId ProducerRec.producerId
      s.peers PeerRec.producers p peer _ hp (fun i hi => hi) c2
  · exact regOwned_add s.consumers ConsumerRec.socketId ConsumerRec.consumerId
      s.peers PeerRec.consumers p peer _ _ hp
      (fun i hi => List.mem_append_left _ hi) rfl
      (List.mem_append_right _ (List.mem_singleton_self _)) c3
  · exact peerBacked_keep s.transports TransportRec.socketId TransportRec.transportId
      s.peers PeerRec.transports p peer _ hp (fun i hi => hi) c4
  · exact peerBacked_keep s.producers ProducerRec.socketId ProducerRec.producerId
      s.peers PeerRec.producers p peer _ hp (fun i hi => hi) c5
  · exact peerBacked_add s.consumers ConsumerRec.socketId ConsumerRec.consumerId
      s.peers PeerRec.consumers p peer _ _ hp
      (fun i hi => by
        rcases List.mem_append.1 hi with hh | hh
        · exact Or.inl hh
        · exact Or.inr (by simpa using hh)) rfl c6

theorem consistent_joinRoom_fresh (s : ServerState) (p r u f : String)
    (hp : lookupA s.peers p = none) (h : Consistent s) :
    Consistent (joinRoom s p r u f).1 := by
  obtain ⟨hst1, hst2, hst3, hst4⟩ := joinRoom_state s p r u f
  obtain ⟨c1, c2, c3, c4, c5, c6⟩ := h
  refine ⟨?_, ?_, ?_, ?_, ?_, ?_⟩
  · rw [hst2, hst1]
    exact regOwned_join_fresh s.transports TransportRec.socketId TransportRec.transportId
      s.peers PeerRec.transports p _ hp c1
  · rw [hst3, hst1]
    exact regOwned_join_fresh s.producers ProducerRec.socketId ProducerRec.producerId
      s.peers PeerRec.producers p _ hp c2
  · rw [hst4, hst1]
    exact regOwned_join_fresh s.consumers ConsumerRec.socketId ConsumerRec.consumerId
      s.peers PeerRec.consumers p _ hp c3
  · rw [hst2, hst1]
    exact peerBacked_join_fresh s.transports TransportRec.socketId TransportRec.transportId
      s.peers PeerRec.transports p _ rfl c4
  · rw [hst3, hst1]
    exact peerBacked_join_fresh s.producers ProducerRec.socketId ProducerRec.producerId
      s.peers PeerRec.producers p _ rfl c5
  · rw [hst4, hst1]
    exact peerBacked_join_fresh s.consumers ConsumerRec.socketId ConsumerRec.consumerId
      s.peers PeerRec.consumers p _ rfl c6

theorem consistent_disconnect (s s2 : ServerState) (p : String)
    (hd : disconnect s p = some s2) (h : Consistent s) : Consistent s2 := by
  obtain ⟨c1, c2, c3, c4, c5, c6⟩ := h
  cases hp : lookupA s.peers p with
  | none => simp [disconnect, hp] at hd
  | some peer =>
      cases hr : lookupA s.rooms peer.roomName with
      | none => simp [disconnect, hp, hr] at hd
      | some room =>
          have hd2 : disconnect s p = some
              ⟨updateA s.rooms peer.roomName
                  ⟨room.router, room.peers.filter (fun i => i != p)⟩,
                eraseA s.peers p,
                removeItems s.transports TransportRec.socketId p,
                removeItems s.producers ProducerRec.socketId p,
                removeItems s.consumers ConsumerRec.socketId p⟩ := by
            simp [disconnect, hp, hr]
          rw [hd2] at hd
          obtain rfl := Option.some.inj hd
          refine ⟨?_, ?_, ?_, ?_, ?_, ?_⟩
          · exact regOwned_disconnect s.transports TransportRec.socketId
              TransportRec.transportId s.peers PeerRec.transports p c1
          · exact regOwned_disconnect s.producers ProducerRec.socketId
              ProducerRec.producerId s.peers PeerRec.producers p c2
          · exact regOwned_disconnect s.consumers ConsumerRec.socketId
              ConsumerRec.consumerId s.peers PeerRec.consumers p c3
          · exact peerBacked_disconnect s.transports TransportRec.socketId
              TransportRec.transportId s.peers PeerRec.transports p c4
          · exact peerBacked_disconnect s.producers ProducerRec.socketId
              ProducerRec.producerId s.peers PeerRec.producers p c5
          · exact peerBacked_disconnect s.consumers ConsumerRec.socketId
              ConsumerRec.consumerId s.peers PeerRec.consumers p c6

theorem consistent_createTransport (s s2 : ServerState) (p tid resp : String)
    (c : Bool) (hh : createWebRtcTransportHandler s p c tid = some (s2, resp))
    (h : Consistent s) : Consistent s2 := by
  cases hp : lookupA s.peers p with
  | none => simp [createWebRtcTransportHandler, hp] at hh
  | some peer =>
      cases hr : lookupA s.rooms peer.roomName with
      | none => simp [createWebRtcTransportHandler, hp, hr] at hh
      | some room =>
          simp only [createWebRtcTransportHandler, hp, hr, Option.some.injEq,
            Prod.mk.injEq] at hh
          obtain ⟨rfl, -⟩ := hh
          exact consistent_addTransport s p tid peer.roomName c peer hp h

theorem consistent_produce (s s2 : ServerState) (p k pid : String)
    (resp : ProduceResponse) (hh : transportProduce s p k pid = some (s2, resp))
    (h : Consistent s) : Consistent s2 := by
  cases hgt : getTransport s p with
  | none => simp [transportProduce, hgt] at hh
  | some t =>
      cases hp : lookupA s.peers p with
      | none => simp [transportProduce, hgt, hp] at hh
      | some peer =>
          simp only [transportProduce, hgt, hp, Option.some.injEq,
            Prod.mk.injEq] at hh
          obtain ⟨rfl, -⟩ := hh
          exact consistent_addProducer s p pid k peer.roomName peer hp h

theorem consistent_consume (s : ServerState) (p tid cid : String) (can : Bool)
    (h : Consistent s) : Consistent (consumeHandler s p tid can cid).1 := by
  cases hp : lookupA s.peers p with
  | none => simpa [consumeHandler, hp] using h
  | some peer =>
      cases hr : lookupA s.rooms peer.roomName with
      | none => simpa [consumeHandler, hp, hr] using h
      | some room =>
          cases hf : s.transports.find?
              (fun t => t.consumer && t.transportId == tid) with
          | none => simpa [consumeHandler, hp, hr, hf] using h
          | some ct =>
              cases can with
              | false => simpa [consumeHandler, hp, hr, hf] using h
              | true =>
                  have hmain : (consumeHandler s p tid true cid).1 =
                      addConsumer s p cid peer.roomName := by
                    simp [consumeHandler, hp, hr, hf]
                  rw [hmain]
                  exact consistent_addConsumer s p cid peer.roomName peer hp h

/-- The operations of claim C8 as a step relation between server states:
joinRoom, createWebRtcTransport, transport-produce, consume, producer-close
propagation and disconnect, each with the engine-issued ids as free
parameters. -/
inductive StepAny : ServerState → ServerState → Prop where
  | joinStep (s : ServerState) (p r u f : String) :
      StepAny s (joinRoom s p r u f).1
  | createTransportStep (s s2 : ServerState) (p tid resp : String) (c : Bool)
      (h : createWebRtcTransportHandler s p c tid = some (s2, resp)) :
      StepAny s s2
  | produceStep (s s2 : ServerState) (p k pid : String) (resp : ProduceResponse)
      (h : transportProduce s p k pid = some (s2, resp)) :
      StepAny s s2
  | consumeStep (s : ServerState) (p tid cid : String) (can : Bool) :
      StepAny s (consumeHandler s p tid can cid).1
  | producerCloseStep (s : ServerState) (ctid cid : String) :
      StepAny s (producerClosePropagation s ctid cid)
  | disconnectStep (s s2 : ServerState) (p : String)
      (h : disconnect s p = some s2) :
      StepAny s s2

/-- Reachability from the initial state through the claim's operations. -/
def ReachableAny (s : ServerState) : Prop :=
  Relation.ReflTransGen StepAny initialState s

/-- The same step relation restricted to the runs that stay consistent:
joinRoom only for a connection with no existing Peer record, and no
producer-close propagation. -/
inductive StepSafe : ServerState → ServerState → Prop where
  | joinStep (s : ServerState) (p r u f : String)
      (hp : lookupA s.peers p = none) :
      StepSafe s (joinRoom s p r u f).1
  | createTransportStep (s s2 : ServerState) (p tid resp : String) (c : Bool)
      (h : createWebRtcTransportHandler s p c tid = some (s2, resp)) :
      StepSafe s s2
  | produceStep (s s2 : ServerState) (p k pid : String) (resp : ProduceResponse)
      (h : transportProduce s p k pid = some (s2, resp)) :
      StepSafe s s2
  | consumeStep (s : ServerState) (p tid cid : String) (can : Bool) :
      StepSafe s (consumeHandler s p tid can cid).1
  | disconnectStep (s s2 : ServerState) (p : String)
      (h : disconnect s p = some s2) :
      StepSafe s s2

theorem stepSafe_preserves (s s2 : ServerState) (hstep : StepSafe s s2)
    (h : Consistent s) : Consistent s2 := by
  cases hstep with
  | joinStep p r u f hp => exact consistent_joinRoom_fresh s p r u f hp h
  | createTransportStep s2 p tid resp c hh =>
      exact consistent_createTransport s s2 p tid resp c hh h
  | produceStep s2 p k pid resp hh => exact consistent_produce s s2 p k pid resp hh h
  | consumeStep p tid cid can => exact consistent_consume s p tid cid can h
  | disconnectStep s2 p hh => exact consistent_disconnect s s2 p hh h

theorem consistent_initial : Consistent initialState := by
  refine ⟨?_, ?_, ?_, ?_, ?_, ?_⟩ <;>
    exact fun x hx => absurd hx (List.not_mem_nil x)

/-- The state after join `A`, `A` creates transport `t1`, and `A` joins the
same room a second time. -/
def c8s1 : ServerState := (joinRoom initialState "A" "room1" "alice" "RA").1

/-- Second step of the C8 counterexample run. -/
def c8s2 : ServerState :=
  ((createWebRtcTransportHandler c8s1 "A" false "t1").map Prod.fst).getD c8s1

/-- Third step of the C8 counterexample run: `A` re-joins `room1`. -/
def c8s3 : ServerState := (joinRoom c8s2 "A" "room1" "alice" "RB").1

/-- Claim C8 (counterexample): the state reached by joinRoom,
createWebRtcTransport and a second joinRoom for the same connection is
reachable by the claim's operations yet inconsistent — the transport record
`t1` is still in the registry while the re-created Peer record's transport
id array is empty. -/
theorem claim_registry_consistency_cex :
    ReachableAny c8s3 ∧ ¬ Consistent c8s3 := by
  constructor
  · have h1 : StepAny initialState c8s1 :=
      StepAny.joinStep initialState "A" "room1" "alice" "RA"
    have h2 : StepAny c8s1 c8s2 :=
      StepAny.createTransportStep c8s1 c8s2 "A" "t1" "t1" false (by decide)
    have h3 : StepAny c8s2 c8s3 := StepAny.joinStep c8s2 "A" "room1" "alice" "RB"
    exact Relation.ReflTransGen.tail
      (Relation.ReflTransGen.tail (Relation.ReflTransGen.single h1) h2) h3
  · intro hC
    obtain ⟨pr, hpr, hmem⟩ := hC.1 ⟨"A", "t1", "room1", false⟩ (by decide)
    have hl : lookupA c8s3.peers "A" = some ⟨"room1", [], [], [], "alice"⟩ := by decide
    have hpr2 : (⟨"room1", [], [], [], "alice"⟩ : PeerRec) = pr :=
      Option.some.inj (hl.symm.trans hpr)
    rw [← hpr2] at hmem
    simp at hmem

/-- Claim C8 (amended): the mutual consistency of the Transport, Producer
and Consumer registries with the Peer records' id-sets holds in every state
reachable by joinRoom (for a connection with no existing Peer record),
createWebRtcTransport, transport-produce, consume and disconnect; it is not
an invariant of the full operation set, since a repeated joinRoom resets the
Peer's id-sets while registry records remain, and producer-close propagation
deletes registry records without updating the owning Peer's id-sets. -/
theorem claim_registry_consistency_inductive (s : ServerState)
    (h : Relation.ReflTransGen StepSafe initialState s) : Consistent s := by
  induction h with
  | refl => exact consistent_initial
  | tail hab hbc ih => exact stepSafe_preserves _ _ hbc ih

/-- Witness for the amended C8 at the state reached by one fresh join. -/
theorem claim_registry_consistency_inductive_w :
    Consistent (joinRoom initialState "A" "room1" "alice" "RA").1 :=
  claim_registry_consistency_inductive _
    (Relation.ReflTransGen.single
      (StepSafe.joinStep initialState "A" "room1" "alice" "RA" rfl))

end Mediasoup
